import Mathlib

/-!
# Status page application (`app/main.go`): handlers over a connection pool

A shallow embedding of the five HTTP handlers of `app/main.go` and of `initPool`.

* The global `pool *pgxpool.Pool` is an `Option Pool`; `none` is the nil pointer.
* Every call that leaves the process (pool acquisition, the queries, the statement
  executions, the ping, the template execution) is replaced by its outcome, collected
  in `Outcomes`: the handlers are functions of the request, the pool and those outcomes.
* Every handler returns, next to what it wrote to the `http.ResponseWriter`, the `Event`
  trace of the calls it made on the pool and on the connection, in call order; deferred
  calls (`defer conn.Release()`, `defer rows.Close()`) appear where they run, at return.
* A handler that dereferences the nil pool panics; `net/http` recovers the panic by
  dropping the connection, so that no HTTP response is written: `Outcome.panicked`.
* The SQL statements of the source are given their meaning on a small database state
  `DB` (the `notes` table and its `SERIAL` sequence), used for the claims that speak of
  stored notes.
-/

namespace App

/-! ## Data model -/

/-- Go `type Note struct`. -/
structure Note where
  ID : Int
  Content : String
  CreatedAt : String
deriving DecidableEq, Repr

/-- Go `type PageData struct`. -/
structure PageData where
  Environment : String
  DBHost : String
  DBName : String
  DBUser : String
  DBVersion : String
  Connected : Bool
  Error : String
  Notes : List Note
  TableExists : Bool
deriving DecidableEq, Repr

/-- The settings `initPool` writes into the parsed configuration. Durations in seconds. -/
structure Pool where
  connString : String
  MaxConns : Nat
  MinConns : Nat
  MaxConnLifetime : Nat
  MaxConnIdleTime : Nat
deriving DecidableEq, Repr

/-- The part of `*http.Request` the handlers read. `Form` lists the parsed form values,
the first pair with a given key holding the value `FormValue` returns. -/
structure Request where
  Method : String
  Path : String
  Form : List (String × String)
deriving DecidableEq, Repr

/-- Go `r.FormValue(key)`: the first value for `key`, the empty string without one. -/
def Request.FormValue (r : Request) (key : String) : String :=
  match r.Form.find? (fun kv => kv.1 == key) with
  | some kv => kv.2
  | none => ""

/-- Go `http.MethodPost`. -/
def MethodPost : String := "POST"

/-- Go `http.StatusOK`. -/
def StatusOK : Nat := 200
/-- Go `http.StatusSeeOther`. -/
def StatusSeeOther : Nat := 303
/-- Go `http.StatusNotFound`. -/
def StatusNotFound : Nat := 404
/-- Go `http.StatusInternalServerError`. -/
def StatusInternalServerError : Nat := 500
/-- Go `http.StatusServiceUnavailable`. -/
def StatusServiceUnavailable : Nat := 503

/-- What a handler did with its `http.ResponseWriter`, one constructor per call the
source makes on it. -/
inductive Response where
  /-- `http.NotFound(w, r)`. -/
  | notFound
  /-- `http.Redirect(w, r, url, code)`. -/
  | redirect (url : String) (code : Nat)
  /-- `http.Error(w, msg, code)`. -/
  | error (msg : String) (code : Nat)
  /-- `w.WriteHeader(code)` followed by `fmt.Fprint(w, body)`. -/
  | written (code : Nat) (body : String)
  /-- `templates.ExecuteTemplate(w, "index.html", data)`; `complete` is false when the
  execution returned an error, which the handler only logs. No `WriteHeader` call
  precedes it, so the status is the implicit 200. -/
  | page (data : PageData) (complete : Bool)
deriving DecidableEq, Repr

/-- The HTTP status code of a response. -/
def Response.status : Response → Nat
  | .notFound => StatusNotFound
  | .redirect _ code => code
  | .error _ code => code
  | .written code _ => code
  | .page _ _ => StatusOK

/-- The `Location` header of a response, set by `http.Redirect` only. -/
def Response.location : Response → Option String
  | .redirect url _ => some url
  | _ => none

/-- The `PageData` a response rendered, if it executed the template. -/
def Response.pageData : Response → Option PageData
  | .page d _ => some d
  | _ => none

/-- How a handler call ends: with a response, or with a panic (nil pointer dereference),
in which case the server writes no response at all. -/
inductive Outcome where
  | responded (r : Response)
  | panicked
deriving DecidableEq, Repr

/-- The status of the response, `none` when the handler panicked. -/
def Outcome.status : Outcome → Option Nat
  | .responded r => some r.status
  | .panicked => none

/-- The `Location` header, `none` without a response or without the header. -/
def Outcome.location : Outcome → Option String
  | .responded r => r.location
  | .panicked => none

/-- The rendered `PageData`, if any. -/
def Outcome.pageData : Outcome → Option PageData
  | .responded r => r.pageData
  | .panicked => none

/-- The calls a handler makes on the pool and on an acquired connection. -/
inductive Event where
  /-- `pool.Acquire(ctx)` returned a connection. -/
  | acquireOk
  /-- `pool.Acquire(ctx)` returned an error. -/
  | acquireErr
  /-- `conn.Release()`. -/
  | release
  /-- `conn.QueryRow(ctx, "SELECT version()")`. -/
  | queryVersion
  /-- `conn.QueryRow(ctx, "SELECT EXISTS(...)")`. -/
  | queryExists
  /-- `conn.Query(ctx, "SELECT id, content, created_at::text FROM notes ...")`. -/
  | queryNotes
  /-- `rows.Close()`. -/
  | rowsClose
  /-- `conn.Exec(ctx, "CREATE TABLE IF NOT EXISTS notes ...")`. -/
  | execCreate
  /-- `conn.Exec(ctx, "INSERT INTO notes (content) VALUES ($1)", content)`. -/
  | execInsert (content : String)
  /-- `pool.Ping(ctx)`. -/
  | ping
deriving DecidableEq, Repr

/-- One row delivered by `rows.Next()`: its column values and the error, if any, that
`rows.Scan` returns on it. -/
structure RowScan where
  row : Note
  scanErr : Option String
deriving DecidableEq, Repr

/-- The outcomes of the external calls of one request. An error is its `Error()` text. -/
structure Outcomes where
  /-- `pool.Acquire`: `none` when a connection is returned. -/
  acquire : Option String
  /-- `SELECT version()` scanned into `data.DBVersion`. -/
  version : Except String String
  /-- The `information_schema` existence query scanned into `exists`. -/
  tableExists : Except String Bool
  /-- The notes query, with the rows `rows.Next()` delivers. -/
  notes : Except String (List RowScan)
  /-- `conn.Exec`: `none` when the statement succeeded. -/
  exec : Option String
  /-- `pool.Ping`: `none` when the ping succeeded. -/
  ping : Option String
  /-- `templates.ExecuteTemplate`: `none` when the execution succeeded. -/
  template : Option String

/-- What a handler call amounts to: how it ended and the calls it made, in order. -/
structure Result where
  outcome : Outcome
  trace : List Event
deriving DecidableEq, Repr

/-! ## Configuration and pool initialisation -/

/-- Go `getEnv`; `env` is `os.Getenv`, the empty string for an unset variable. -/
def getEnv (env : String → String) (key fallback : String) : String :=
  if env key ≠ "" then env key else fallback

/-- Go `getConnString`. -/
def getConnString (env : String → String) : String :=
  let host := getEnv env "DB_HOST" "localhost"
  let port := getEnv env "DB_PORT" "5432"
  let name := getEnv env "DB_NAME" "appdb"
  let user := getEnv env "DB_USER" "appuser"
  let pass := getEnv env "DB_PASSWORD" ""
  let sslmode := getEnv env "DB_SSLMODE" "require"
  "host=" ++ host ++ " port=" ++ port ++ " dbname=" ++ name ++ " user=" ++ user
    ++ " password=" ++ pass ++ " sslmode=" ++ sslmode

/-- Go `initPool`, run on the global `pool`; `parseErr` and `newErr` are the errors of
`pgxpool.ParseConfig` and `pgxpool.NewWithConfig`. Returns the global afterwards and the
returned error. A failing `ParseConfig` leaves the global untouched; `NewWithConfig`
is assigned to the global also when it fails, and then returns the nil pool. -/
def initPool (env : String → String) (parseErr newErr : Option String)
    (pool : Option Pool) : Option Pool × Option String :=
  match parseErr with
  | some e => (pool, some ("parse config: " ++ e))
  | none =>
    match newErr with
    | some e => (none, some ("create pool: " ++ e))
    | none =>
      (some { connString := getConnString env, MaxConns := 5, MinConns := 1,
              MaxConnLifetime := 30 * 60, MaxConnIdleTime := 5 * 60 }, none)

/-! ## Handlers -/

/-- The tail shared by the three rendering exits of `handleIndex`:
`templates.ExecuteTemplate(w, "index.html", data)`, whose error is only logged. -/
def render (data : PageData) (o : Outcomes) : Outcome :=
  .responded (.page data o.template.isNone)

/-- The loop `for rows.Next() { ... }` of `handleIndex`: a row is appended to
`data.Notes` when `rows.Scan` returned no error on it, and skipped otherwise. -/
def scanLoop : List RowScan → List Note → List Note
  | [], notes => notes
  | r :: rest, notes =>
    match r.scanErr with
    | none => scanLoop rest (notes ++ [r.row])
    | some _ => scanLoop rest notes

/-- Go `handleIndex`. -/
def handleIndex (env : String → String) (pool : Option Pool) (r : Request)
    (o : Outcomes) : Result :=
  if r.Path ≠ "/" then
    { outcome := .responded .notFound, trace := [] }
  else
    let data : PageData :=
      { Environment := getEnv env "ENVIRONMENT" "unknown",
        DBHost := getEnv env "DB_HOST" "localhost",
        DBName := getEnv env "DB_NAME" "appdb",
        DBUser := getEnv env "DB_USER" "appuser",
        DBVersion := "", Connected := false, Error := "", Notes := [],
        TableExists := false }
    match pool with
    | none =>
      { outcome := render { data with Error := "Database connection pool not initialized" } o,
        trace := [] }
    | some _ =>
      match o.acquire with
      | some e =>
        { outcome := render { data with Error := "Connection failed: " ++ e } o,
          trace := [.acquireErr] }
      | none =>
        let data := { data with Connected := true }
        let data :=
          match o.version with
          | .ok v => { data with DBVersion := v }
          | .error e => { data with Error := "Version query failed: " ++ e }
        match o.tableExists with
        | .ok true =>
          let data := { data with TableExists := true }
          match o.notes with
          | .ok rows =>
            { outcome := render { data with Notes := scanLoop rows data.Notes } o,
              trace := [.acquireOk, .queryVersion, .queryExists, .queryNotes,
                        .rowsClose, .release] }
          | .error _ =>
            { outcome := render data o,
              trace := [.acquireOk, .queryVersion, .queryExists, .queryNotes, .release] }
        | _ =>
          { outcome := render data o,
            trace := [.acquireOk, .queryVersion, .queryExists, .release] }

/-- Go `pool.Acquire(ctx)` as the two action handlers call it, without a nil check:
on the nil pool the method dereferences its receiver and panics. -/
def acquire (pool : Option Pool) (o : Outcomes) : Option (Option String) :=
  match pool with
  | none => none
  | some _ => some o.acquire

/-- Go `handleCreateTable`. -/
def handleCreateTable (pool : Option Pool) (r : Request) (o : Outcomes) : Result :=
  if r.Method ≠ MethodPost then
    { outcome := .responded (.redirect "/" StatusSeeOther), trace := [] }
  else
    match acquire pool o with
    | none => { outcome := .panicked, trace := [] }
    | some (some e) =>
      { outcome := .responded (.error e StatusInternalServerError), trace := [.acquireErr] }
    | some none =>
      match o.exec with
      | some e =>
        { outcome := .responded (.error e StatusInternalServerError),
          trace := [.acquireOk, .execCreate, .release] }
      | none =>
        { outcome := .responded (.redirect "/" StatusSeeOther),
          trace := [.acquireOk, .execCreate, .release] }

/-- Go `handleAddNote`. -/
def handleAddNote (pool : Option Pool) (r : Request) (o : Outcomes) : Result :=
  if r.Method ≠ MethodPost then
    { outcome := .responded (.redirect "/" StatusSeeOther), trace := [] }
  else
    let content := r.FormValue "content"
    if content = "" then
      { outcome := .responded (.redirect "/" StatusSeeOther), trace := [] }
    else
      match acquire pool o with
      | none => { outcome := .panicked, trace := [] }
      | some (some e) =>
        { outcome := .responded (.error e StatusInternalServerError), trace := [.acquireErr] }
      | some none =>
        match o.exec with
        | some e =>
          { outcome := .responded (.error e StatusInternalServerError),
            trace := [.acquireOk, .execInsert content, .release] }
        | none =>
          { outcome := .responded (.redirect "/" StatusSeeOther),
            trace := [.acquireOk, .execInsert content, .release] }

/-- Go `handleLiveness`. -/
def handleLiveness (_r : Request) : Result :=
  { outcome := .responded (.written StatusOK "ok"), trace := [] }

/-- Go `handleReadiness`. -/
def handleReadiness (pool : Option Pool) (_r : Request) (o : Outcomes) : Result :=
  match pool with
  | none =>
    { outcome := .responded (.written StatusServiceUnavailable "pool not initialized"),
      trace := [] }
  | some _ =>
    match o.ping with
    | some e =>
      { outcome := .responded (.written StatusServiceUnavailable ("unhealthy: " ++ e)),
        trace := [.ping] }
    | none =>
      { outcome := .responded (.written StatusOK "ok"), trace := [.ping] }

/-! ## The server: the five registrations of `main` over the global pool -/

/-- The patterns `main` registers on the `ServeMux`, in registration order:
`/`, `/create-table`, `/add-note`, `/livez`, `/healthz`. -/
inductive Route where
  | index
  | createTable
  | addNote
  | livez
  | healthz
deriving DecidableEq, Repr

/-- The handler `main` registers for each pattern, applied to a request. -/
def dispatch (env : String → String) (pool : Option Pool) (route : Route) (r : Request)
    (o : Outcomes) : Result :=
  match route with
  | .index => handleIndex env pool r o
  | .createTable => handleCreateTable pool r o
  | .addNote => handleAddNote pool r o
  | .livez => handleLiveness r
  | .healthz => handleReadiness pool r o

/-- One served request: the pattern it matched, the request, the outcomes of its calls. -/
structure Served where
  route : Route
  request : Request
  outcomes : Outcomes

/-- The server loop on the global `pool`: every request is dispatched with the current
value of the global; the value after the request is the value before it, since no
handler assigns the global and `initPool` is called from `main` only, before serving.
Returns the global after the last request and the results, in order. -/
def serveAll (env : String → String) : Option Pool → List Served → Option Pool × List Result
  | pool, [] => (pool, [])
  | pool, s :: rest =>
    let res := dispatch env pool s.route s.request s.outcomes
    let after := serveAll env pool rest
    (after.1, res :: after.2)

/-- Go `main` up to shutdown: `initPool()` on the nil global, its error only logged,
then the server loop. -/
def main (env : String → String) (parseErr newErr : Option String)
    (requests : List Served) : Option Pool × List Result :=
  serveAll env (initPool env parseErr newErr none).1 requests

/-! ## Connections held -/

/-- The number of connections a handler holds after the calls of `t`, having held `n`
before: a successful acquisition takes one, a release gives one back. -/
def held (n : Int) : List Event → Int
  | [] => n
  | .acquireOk :: t => held (n + 1) t
  | .release :: t => held (n - 1) t
  | _ :: t => held n t

/-- The number of `pool.Acquire` calls in a trace, successful or not. -/
def acquisitions (t : List Event) : Nat :=
  t.count .acquireOk + t.count .acquireErr

/-- Whether a trace runs a query or executes a statement. -/
def Event.isQuery : Event → Bool
  | .queryVersion => true
  | .queryExists => true
  | .queryNotes => true
  | .execCreate => true
  | .execInsert _ => true
  | _ => false

/-- Whether an event is the execution of the insert statement. -/
def Event.isInsert : Event → Bool
  | .execInsert _ => true
  | _ => false

/-! ## The database behind the pool

The meaning of the four SQL statements of the source on the `notes` table. -/

/-- The database as the statements of the source see it: the rows of `notes`
(`none` while the table does not exist) and the next value of the sequence behind
`id SERIAL`. `CreatedAt` holds `created_at::text`. -/
structure DB where
  notes : Option (List Note)
  nextId : Int
deriving DecidableEq, Repr

/-- The largest value of a `SERIAL` (four-byte integer) column. -/
def maxSerial : Int := 2147483647

/-- `CREATE TABLE IF NOT EXISTS notes (id SERIAL PRIMARY KEY, content TEXT NOT NULL,
created_at TIMESTAMP DEFAULT NOW())`: creates the empty table with a sequence starting
at 1, and does nothing when the table exists. -/
def DB.createTable (db : DB) : DB :=
  match db.notes with
  | some _ => db
  | none => { notes := some [], nextId := 1 }

/-- `INSERT INTO notes (content) VALUES ($1)` at time `now`: the row takes the next
sequence value as its id. Fails without the table and once the sequence is exhausted. -/
def DB.insertNote (db : DB) (content now : String) : Except String DB :=
  match db.notes with
  | none => .error "relation \"notes\" does not exist"
  | some rows =>
    if db.nextId > maxSerial then
      .error "nextval: reached maximum value of sequence"
    else
      .ok { notes := some (rows ++ [{ ID := db.nextId, Content := content, CreatedAt := now }]),
            nextId := db.nextId + 1 }

/-- `SELECT EXISTS(SELECT 1 FROM information_schema.tables WHERE table_name='notes')`. -/
def DB.tableExists (db : DB) : Bool :=
  db.notes.isSome

/-- The order of `ORDER BY id DESC`: `a` comes no later than `b`. -/
def byIdDesc (a b : Note) : Prop := a.ID ≥ b.ID

instance byIdDesc_decidable : DecidableRel byIdDesc :=
  fun a b => inferInstanceAs (Decidable (a.ID ≥ b.ID))

instance byIdDesc_total : IsTotal Note byIdDesc :=
  ⟨fun a b => le_total b.ID a.ID⟩

instance byIdDesc_trans : IsTrans Note byIdDesc :=
  ⟨fun _ _ _ hab hbc => le_trans hbc hab⟩

/-- `SELECT id, content, created_at::text FROM notes ORDER BY id DESC LIMIT 20`. -/
def DB.selectNotes (db : DB) : Except String (List Note) :=
  match db.notes with
  | none => .error "relation \"notes\" does not exist"
  | some rows => .ok ((rows.insertionSort byIdDesc).take 20)

/-- The error of a statement, `none` when it succeeded. -/
def errorOf {α : Type} : Except String α → Option String
  | .ok _ => none
  | .error e => some e

/-- The outcomes a reachable database `db` gives a request on a healthy pool: every
acquisition, scan, ping and template execution succeeds, the queries return what `db`
holds, and the statement the request executes fails exactly when `stmt` fails on `db`. -/
def DB.outcomes {α : Type} (db : DB) (version : String) (stmt : Except String α) : Outcomes :=
  { acquire := none,
    version := .ok version,
    tableExists := .ok db.tableExists,
    notes := db.selectNotes.map (fun rows => rows.map (fun n => { row := n, scanErr := none })),
    exec := errorOf stmt,
    ping := none,
    template := none }

/-- A request to `/add-note` against database `db` through pool `pool`, with outcomes
`o` for its calls: the result and the database afterwards. The insert takes effect when
the handler executed it and `o` reports its success; no other call writes. -/
def addNoteOn (db : DB) (now : String) (pool : Option Pool) (r : Request) (o : Outcomes) :
    Result × DB :=
  let res := handleAddNote pool r o
  match res.trace.find? Event.isInsert, o.exec with
  | some (.execInsert content), none =>
    match db.insertNote content now with
    | .ok db2 => (res, db2)
    | .error _ => (res, db)
  | _, _ => (res, db)

/-- A `POST /add-note` on a healthy pool: the outcome of the insert is the one the
database gives. -/
def postAddNote (db : DB) (now version : String) (pool : Pool) (r : Request) : Result × DB :=
  addNoteOn db now (some pool) r
    (db.outcomes version (db.insertNote (r.FormValue "content") now))

/-- A request to `/` on a healthy pool. -/
def getIndex (env : String → String) (db : DB) (version : String) (pool : Pool)
    (r : Request) : Result :=
  handleIndex env (some pool) r (db.outcomes version (Except.ok ()))

/-- The ids of a database were all handed out by its sequence: they are pairwise
distinct (primary key) and below the next sequence value. -/
def DB.wf (db : DB) : Prop :=
  match db.notes with
  | none => True
  | some rows => (rows.map Note.ID).Nodup ∧ ∀ n ∈ rows, n.ID < db.nextId

instance DB.wf_decidable (db : DB) : Decidable db.wf :=
  match h : db.notes with
  | none => isTrue (by simp [DB.wf, h])
  | some rows =>
    decidable_of_iff ((rows.map Note.ID).Nodup ∧ ∀ n ∈ rows, n.ID < db.nextId)
      (by simp [DB.wf, h])

/-! ## Concrete inputs -/

/-- An environment with no variable set. -/
def noEnv : String → String := fun _ => ""

/-- The pool `initPool` builds in the empty environment. -/
def samplePool : Pool :=
  { connString := getConnString noEnv, MaxConns := 5, MinConns := 1,
    MaxConnLifetime := 1800, MaxConnIdleTime := 300 }

/-- Outcomes of a request none of whose calls fails, on a database without the table. -/
def allOk : Outcomes :=
  { acquire := none, version := .ok "PostgreSQL 16.3", tableExists := .ok false,
    notes := .ok [], exec := none, ping := none, template := none }

/-- `GET /`. -/
def getRoot : Request := { Method := "GET", Path := "/", Form := [] }

/-- `POST /`. -/
def postRoot : Request := { Method := "POST", Path := "/", Form := [] }

/-- `POST /create-table`. -/
def postCreateTable : Request := { Method := "POST", Path := "/create-table", Form := [] }

/-- `POST /add-note` with `content=hello`. -/
def postHello : Request :=
  { Method := "POST", Path := "/add-note", Form := [("content", "hello")] }

/-- `POST /add-note` with an empty `content`. -/
def postEmpty : Request :=
  { Method := "POST", Path := "/add-note", Form := [("content", "")] }

/-- `GET /healthz`. -/
def getHealthz : Request := { Method := "GET", Path := "/healthz", Form := [] }

/-- Outcomes of a request to `/` whose version query fails, the table holding one note. -/
def versionFails : Outcomes :=
  { allOk with
    version := .error "canceled",
    tableExists := .ok true,
    notes := .ok [{ row := { ID := 1, Content := "a", CreatedAt := "t" }, scanErr := none }] }

/-- Three rows in descending id order, the scan of the middle one failing. -/
def threeRows : List RowScan :=
  [{ row := { ID := 9, Content := "c", CreatedAt := "t3" }, scanErr := none },
   { row := { ID := 7, Content := "b", CreatedAt := "t2" }, scanErr := some "bad text" },
   { row := { ID := 4, Content := "a", CreatedAt := "t1" }, scanErr := none }]

/-- Outcomes of a request to `/` whose notes query delivers `threeRows`. -/
def middleScanFails : Outcomes :=
  { allOk with tableExists := .ok true, notes := .ok threeRows }

/-- A database whose `notes` table holds the twenty notes with ids 1 to 20. -/
def db20 : DB :=
  { notes := some ((List.range 20).map
      (fun i => { ID := (i : Int) + 1, Content := "old", CreatedAt := "t" })),
    nextId := 21 }

/-- A database whose `notes` table holds the notes 1 and 2. -/
def db2 : DB :=
  { notes := some [{ ID := 1, Content := "a", CreatedAt := "t1" },
                   { ID := 2, Content := "b", CreatedAt := "t2" }],
    nextId := 3 }

/-! ## Properties of a trace -/

/-- A trace takes at most one connection and gives back what it took: at most one
`pool.Acquire` call, as many releases as successful acquisitions, no release without a
successful acquisition, and the acquisition first and the release last when there is
one. -/
def Scoped (t : List Event) : Prop :=
  acquisitions t ≤ 1 ∧
  t.count .release = t.count .acquireOk ∧
  (Event.acquireOk ∉ t → Event.release ∉ t) ∧
  (Event.acquireOk ∈ t → t.head? = some .acquireOk ∧ t.getLast? = some .release)

instance Scoped_decidable (t : List Event) : Decidable (Scoped t) :=
  inferInstanceAs (Decidable (_ ∧ _ ∧ _ ∧ _))

/-- The rows the notes query delivers to the scan loop, none when the query failed. -/
def Outcomes.delivered (o : Outcomes) : List RowScan :=
  match o.notes with
  | .ok rows => rows
  | .error _ => []

/-! ## Auxiliary lemmas -/

theorem append_ne_empty (a b : String) (h : a ≠ "") : a ++ b ≠ "" := by
  intro hab
  apply h
  have hl : (a ++ b).length = 0 := by rw [hab]; rfl
  rw [String.length_append] at hl
  have ha : a.length = 0 := by omega
  cases a with
  | mk d =>
    have hd : d = [] := List.length_eq_zero.mp ha
    subst hd
    rfl

theorem scanLoop_eq (rows : List RowScan) (acc : List Note) :
    scanLoop rows acc
      = acc ++ rows.filterMap (fun r => if r.scanErr.isNone then some r.row else none) := by
  induction rows generalizing acc with
  | nil => simp [scanLoop]
  | cons r rest ih =>
    cases hr : r.scanErr with
    | none => simp [scanLoop, hr, ih]
    | some e => simp [scanLoop, hr, ih]

/-- With a pool present, both action handlers answer a `POST`: 500 with the error text
when the acquisition or the statement fails, a 303 redirect to `/` when both succeed. -/
theorem action_handlers_pool_present (p : Pool) (r : Request) (o : Outcomes)
    (hm : r.Method = MethodPost) :
    (handleCreateTable (some p) r o).outcome.status
        = some (if o.acquire.isSome ∨ o.exec.isSome then 500 else 303) ∧
    (r.FormValue "content" ≠ "" →
      (handleAddNote (some p) r o).outcome.status
        = some (if o.acquire.isSome ∨ o.exec.isSome then 500 else 303)) := by
  constructor
  · unfold handleCreateTable acquire
    cases ha : o.acquire <;> cases he : o.exec <;>
      simp [hm, Outcome.status, Response.status, StatusInternalServerError, StatusSeeOther]
  · intro hc
    unfold handleAddNote acquire
    cases ha : o.acquire <;> cases he : o.exec <;>
      simp [hm, hc, Outcome.status, Response.status, StatusInternalServerError, StatusSeeOther]

/-! ## Claims -/

/-- C1, evaluated on the nil pool: `POST /create-table` and `POST /add-note` with
`content=hello` end in a panic, without any response and so without a status, where
the claim has a 500 response. -/
theorem action_handlers_panic_on_nil_pool :
    handleCreateTable none postCreateTable allOk = { outcome := .panicked, trace := [] } ∧
    handleAddNote none postHello allOk = { outcome := .panicked, trace := [] } ∧
    (handleCreateTable none postCreateTable allOk).outcome.status = none ∧
    (handleAddNote none postHello allOk).outcome.status = none ∧
    (handleCreateTable none postCreateTable allOk).outcome.status ≠ some 500 ∧
    (handleAddNote none postHello allOk).outcome.status ≠ some 500 := by
  decide

/-- C2: `handleReadiness` answers 503 exactly when the pool is absent or the ping
fails, and 200 `ok` otherwise. With the pool absent the body is `pool not initialized`
and no call is made (no ping); with the pool present and the ping failing with `e` the
body is `unhealthy: ` followed by `e`; with the ping succeeding it is 200 `ok`. -/
theorem handleReadiness_spec (pool : Option Pool) (r : Request) (o : Outcomes) :
    ((handleReadiness pool r o).outcome.status = some 503 ↔ pool = none ∨ o.ping ≠ none) ∧
    ((handleReadiness pool r o).outcome.status ≠ some 503 →
      (handleReadiness pool r o).outcome = .responded (.written 200 "ok")) ∧
    (pool = none →
      handleReadiness pool r o
        = { outcome := .responded (.written 503 "pool not initialized"), trace := [] }) ∧
    (∀ p e, pool = some p → o.ping = some e →
      handleReadiness pool r o
        = { outcome := .responded (.written 503 ("unhealthy: " ++ e)), trace := [.ping] }) ∧
    (∀ p, pool = some p → o.ping = none →
      handleReadiness pool r o
        = { outcome := .responded (.written 200 "ok"), trace := [.ping] }) := by
  unfold handleReadiness
  cases pool with
  | none =>
    simp [Outcome.status, Response.status, StatusServiceUnavailable]
  | some p =>
    cases hp : o.ping with
    | none => simp [Outcome.status, Response.status, StatusOK]
    | some e => simp [Outcome.status, Response.status, StatusServiceUnavailable]

/-- C2 at concrete inputs: the nil pool; a present pool whose ping fails with
`timeout`; a present pool whose ping succeeds. -/
theorem handleReadiness_spec_witness :
    handleReadiness none getHealthz allOk
      = { outcome := .responded (.written 503 "pool not initialized"), trace := [] } ∧
    handleReadiness (some samplePool) getHealthz { allOk with ping := some "timeout" }
      = { outcome := .responded (.written 503 "unhealthy: timeout"), trace := [.ping] } ∧
    handleReadiness (some samplePool) getHealthz allOk
      = { outcome := .responded (.written 200 "ok"), trace := [.ping] } :=
  ⟨(handleReadiness_spec none getHealthz allOk).2.2.1 rfl,
   (handleReadiness_spec (some samplePool) getHealthz { allOk with ping := some "timeout" }).2.2.2.1
      samplePool "timeout" rfl rfl,
   (handleReadiness_spec (some samplePool) getHealthz allOk).2.2.2.2 samplePool rfl rfl⟩

/-- C3: a request to `handleAddNote` that is not a `POST`, or whose `content` is empty,
is answered by a 303 redirect to `/` for every pool, the nil pool included; the handler
makes no call at all (no acquisition, no insert) and the database is unchanged. -/
theorem handleAddNote_empty_content (pool : Option Pool) (r : Request) (o : Outcomes)
    (db : DB) (now : String)
    (h : r.Method ≠ MethodPost ∨ r.FormValue "content" = "") :
    handleAddNote pool r o
        = { outcome := .responded (.redirect "/" 303), trace := [] } ∧
    (handleAddNote pool r o).outcome.status = some 303 ∧
    (handleAddNote pool r o).outcome.location = some "/" ∧
    acquisitions (handleAddNote pool r o).trace = 0 ∧
    (∀ c, Event.execInsert c ∉ (handleAddNote pool r o).trace) ∧
    (addNoteOn db now pool r o).2 = db := by
  have key : handleAddNote pool r o
      = { outcome := .responded (.redirect "/" 303), trace := [] } := by
    unfold handleAddNote
    rcases h with h | h
    · simp [h, StatusSeeOther]
    · by_cases hm : r.Method = MethodPost <;> simp [hm, h, StatusSeeOther]
  refine ⟨key, ?_, ?_, ?_, ?_, ?_⟩
  · rw [key]; rfl
  · rw [key]; rfl
  · rw [key]; rfl
  · intro c; rw [key]; simp
  · unfold addNoteOn
    simp [key]

/-- C3 at `POST /add-note` with `content=` on the nil pool, over a database holding one
note. -/
theorem handleAddNote_empty_content_witness :
    handleAddNote none postEmpty allOk
        = { outcome := .responded (.redirect "/" 303), trace := [] } ∧
    (addNoteOn { notes := some [{ ID := 1, Content := "a", CreatedAt := "t" }], nextId := 2 }
        "now" none postEmpty allOk).2
      = { notes := some [{ ID := 1, Content := "a", CreatedAt := "t" }], nextId := 2 } :=
  have h := handleAddNote_empty_content none postEmpty allOk
    { notes := some [{ ID := 1, Content := "a", CreatedAt := "t" }], nextId := 2 } "now"
    (Or.inr (by decide))
  ⟨h.1, h.2.2.2.2.2⟩

/-- C4: a request with path `/` is always answered by the rendered page with status
200, whatever the pool and the outcomes of the acquisition, the three queries and the
template. The rendered `Connected` is true exactly when the pool is present and the
acquisition succeeded; otherwise `Error` is `Database connection pool not initialized`
(nil pool) or `Connection failed: ` followed by the error, hence non-empty,
`TableExists` is false, `Notes` is empty and the trace holds no query. -/
theorem handleIndex_root (env : String → String) (pool : Option Pool) (r : Request)
    (o : Outcomes) (hp : r.Path = "/") :
    (handleIndex env pool r o).outcome.status = some 200 ∧
    ∃ d, (handleIndex env pool r o).outcome.pageData = some d ∧
      (d.Connected = true ↔ pool ≠ none ∧ o.acquire = none) ∧
      (pool = none → d.Error = "Database connection pool not initialized") ∧
      (∀ e, pool ≠ none → o.acquire = some e → d.Error = "Connection failed: " ++ e) ∧
      (pool = none ∨ o.acquire ≠ none →
        d.Error ≠ "" ∧ d.TableExists = false ∧ d.Notes = [] ∧
        ∀ ev ∈ (handleIndex env pool r o).trace, ev.isQuery = false) := by
  unfold handleIndex
  cases pool with
  | none =>
    simp [hp, render, Outcome.status, Outcome.pageData, Response.status, Response.pageData,
      StatusOK]
  | some p =>
    cases ha : o.acquire with
    | some e =>
      simp [hp, render, Outcome.status, Outcome.pageData, Response.status,
        Response.pageData, StatusOK, Event.isQuery]
      exact append_ne_empty _ _ (by decide)
    | none =>
      cases hv : o.version <;> cases ht : o.tableExists <;>
        (try rename_i b; cases b) <;> cases hn : o.notes <;>
        simp [hp, render, Outcome.status, Outcome.pageData, Response.status,
          Response.pageData, StatusOK]

/-- C4 at `GET /` on the nil pool and on a pool whose acquisition fails. -/
theorem handleIndex_root_witness :
    (handleIndex noEnv none getRoot allOk).outcome.status = some 200 ∧
    (handleIndex noEnv (some samplePool) getRoot
      { allOk with acquire := some "refused" }).outcome.status = some 200 :=
  ⟨(handleIndex_root noEnv none getRoot allOk rfl).1,
   (handleIndex_root noEnv (some samplePool) getRoot
      { allOk with acquire := some "refused" } rfl).1⟩

/-- C5 as stated fails: `POST /` is not answered with 404; on the nil pool as on a
healthy one the index page is rendered with status 200. -/
theorem post_root_not_404 :
    postRoot.Method ≠ "GET" ∧ postRoot.Path = "/" ∧
    (handleIndex noEnv none postRoot allOk).outcome.status = some 200 ∧
    (handleIndex noEnv (some samplePool) postRoot allOk).outcome.status = some 200 ∧
    (handleIndex noEnv (some samplePool) postRoot allOk).outcome.status ≠ some 404 := by
  decide

/-- C5, amended: `handleIndex` never reads the method. A request it receives is answered
with 404 exactly when its path is not `/`, and a request to `/` with 200 whatever its
method; a request to `handleCreateTable` or `handleAddNote` that is not a `POST` is
answered with a 303 redirect to `/`, without any call on the pool. -/
theorem methods_and_paths (env : String → String) (pool : Option Pool) (r : Request)
    (o : Outcomes) :
    (r.Path ≠ "/" →
      handleIndex env pool r o = { outcome := .responded .notFound, trace := [] } ∧
      (handleIndex env pool r o).outcome.status = some 404) ∧
    (r.Path = "/" → (handleIndex env pool r o).outcome.status = some 200) ∧
    (∀ m, handleIndex env pool { r with Method := m } o = handleIndex env pool r o) ∧
    (r.Method ≠ MethodPost →
      handleCreateTable pool r o
        = { outcome := .responded (.redirect "/" 303), trace := [] } ∧
      handleAddNote pool r o
        = { outcome := .responded (.redirect "/" 303), trace := [] }) := by
  refine ⟨?_, ?_, ?_, ?_⟩
  · intro hp
    simp [handleIndex, hp, Outcome.status, Response.status, StatusNotFound]
  · intro hp
    unfold handleIndex
    cases pool with
    | none => simp [hp, render, Outcome.status, Response.status, StatusOK]
    | some p =>
      cases ha : o.acquire <;> cases hv : o.version <;> cases ht : o.tableExists <;>
        (try rename_i b; cases b) <;> cases hn : o.notes <;>
        simp [hp, render, Outcome.status, Response.status, StatusOK]
  · intro m
    rfl
  · intro hm
    simp [handleCreateTable, handleAddNote, hm, StatusSeeOther]

/-- C5, amended, at `GET /create-table` (a redirect), `POST /` (200) and
`POST /create-table` sent to the index handler (404). -/
theorem methods_and_paths_witness :
    handleCreateTable (some samplePool) { postCreateTable with Method := "GET" } allOk
        = { outcome := .responded (.redirect "/" 303), trace := [] } ∧
    (handleIndex noEnv (some samplePool) postRoot allOk).outcome.status = some 200 ∧
    (handleIndex noEnv (some samplePool) postCreateTable allOk).outcome.status = some 404 :=
  ⟨((methods_and_paths noEnv (some samplePool) { postCreateTable with Method := "GET" }
      allOk).2.2.2 (by decide)).1,
   (methods_and_paths noEnv (some samplePool) postRoot allOk).2.1 rfl,
   ((methods_and_paths noEnv (some samplePool) postCreateTable allOk).1 (by decide)).2⟩

/-- C9: on every exit path of `handleIndex`, `handleCreateTable` and `handleAddNote`
the trace is scoped: at most one `pool.Acquire` call; as many releases as successful
acquisitions (so exactly one release after a successful acquisition and none when the
acquisition failed, panicked or was never attempted); the acquisition is the first call
and the release the last. Hence the number of connections held is the same after the
request as before it, whatever it was. -/
theorem handlers_release_what_they_acquire (env : String → String) (pool : Option Pool)
    (r : Request) (o : Outcomes) :
    (Scoped (handleIndex env pool r o).trace ∧
      ∀ n : Int, held n (handleIndex env pool r o).trace = n) ∧
    (Scoped (handleCreateTable pool r o).trace ∧
      ∀ n : Int, held n (handleCreateTable pool r o).trace = n) ∧
    (Scoped (handleAddNote pool r o).trace ∧
      ∀ n : Int, held n (handleAddNote pool r o).trace = n) := by
  refine ⟨?_, ?_, ?_⟩
  · unfold handleIndex
    by_cases hp : r.Path = "/"
    · cases pool with
      | none => simp [hp, Scoped, acquisitions, held]
      | some p =>
        cases ha : o.acquire <;> cases hv : o.version <;> cases ht : o.tableExists <;>
          (try rename_i b; cases b) <;> cases hn : o.notes <;>
          simp [hp, Scoped, acquisitions, held]
    · simp [hp, Scoped, acquisitions, held]
  · unfold handleCreateTable acquire
    by_cases hm : r.Method = MethodPost
    · cases pool with
      | none => simp [hm, Scoped, acquisitions, held]
      | some p =>
        cases ha : o.acquire <;> cases he : o.exec <;>
          simp [hm, Scoped, acquisitions, held]
    · simp [hm, Scoped, acquisitions, held]
  · unfold handleAddNote acquire
    by_cases hm : r.Method = MethodPost
    · by_cases hc : r.FormValue "content" = ""
      · simp [hm, hc, Scoped, acquisitions, held]
      · cases pool with
        | none => simp [hm, hc, Scoped, acquisitions, held]
        | some p =>
          cases ha : o.acquire <;> cases he : o.exec <;>
            simp [hm, hc, Scoped, acquisitions, held]
    · simp [hm, Scoped, acquisitions, held]

/-- C9 at `POST /add-note` with `content=hello`: on success and on a failed insert the
handler acquires, executes and releases; on a failed acquisition and on the nil pool it
releases nothing; with three connections held before, three are held after. -/
theorem handlers_release_what_they_acquire_witness :
    (handleAddNote (some samplePool) postHello allOk).trace
      = [.acquireOk, .execInsert "hello", .release] ∧
    (handleAddNote (some samplePool) postHello { allOk with exec := some "no table" }).trace
      = [.acquireOk, .execInsert "hello", .release] ∧
    (handleAddNote (some samplePool) postHello { allOk with acquire := some "refused" }).trace
      = [.acquireErr] ∧
    (handleAddNote none postHello allOk).trace = [] ∧
    Scoped (handleAddNote (some samplePool) postHello allOk).trace ∧
    held 3 (handleAddNote (some samplePool) postHello allOk).trace = 3 :=
  ⟨by decide, by decide, by decide, by decide,
   (handlers_release_what_they_acquire noEnv (some samplePool) postHello allOk).2.2.1,
   (handlers_release_what_they_acquire noEnv (some samplePool) postHello allOk).2.2.2 3⟩

/-- C10 as stated fails: on a healthy connection, with the version query succeeding and
the table-existence query failing, the page is rendered with an empty `Error`: the
message of the failed existence query is not captured. -/
theorem exists_query_error_not_captured :
    (handleIndex noEnv (some samplePool) getRoot
      { allOk with tableExists := .error "permission denied" }).outcome.pageData
      = some { Environment := "unknown", DBHost := "localhost", DBName := "appdb",
               DBUser := "appuser", DBVersion := "PostgreSQL 16.3", Connected := true,
               Error := "", Notes := [], TableExists := false } := by
  decide

/-- C10, amended: after a successful acquisition the page is rendered with status 200
and `Connected = true` whatever the two read-only queries return. A failing version
query leaves `Version query failed: ` followed by its error in `Error`, hence non-empty,
and `TableExists` and `Notes` do not depend on the outcome of the version query. A
failing table-existence query is not captured: `TableExists` is false, `Notes` is empty
and `Error` is what the version query left, empty when it succeeded. -/
theorem index_query_failures (env : String → String) (p : Pool) (r : Request)
    (o : Outcomes) (hp : r.Path = "/") (ha : o.acquire = none) :
    (handleIndex env (some p) r o).outcome.status = some 200 ∧
    ∃ d, (handleIndex env (some p) r o).outcome.pageData = some d ∧
      d.Connected = true ∧
      (∀ e, o.version = .error e →
        d.Error = "Version query failed: " ++ e ∧ d.Error ≠ "") ∧
      (∀ v, ∃ d2, (handleIndex env (some p) r { o with version := v }).outcome.pageData
          = some d2 ∧ d2.TableExists = d.TableExists ∧ d2.Notes = d.Notes) ∧
      (∀ e, o.tableExists = .error e →
        d.TableExists = false ∧ d.Notes = [] ∧
        d.Error = (match o.version with
                   | .ok _ => ""
                   | .error ev => "Version query failed: " ++ ev)) := by
  have hne : ∀ e : String, "Version query failed: " ++ e ≠ "" :=
    fun e => append_ne_empty _ e (by decide)
  unfold handleIndex
  cases hv : o.version <;> cases ht : o.tableExists <;>
    (try rename_i b; cases b) <;> cases hn : o.notes <;>
    simp [hp, ha, render, Outcome.status, Outcome.pageData, Response.status,
      Response.pageData, StatusOK, hne] <;>
    (intro v; cases v <;> simp)

/-- C10, amended, at `GET /` with a failing version query on a healthy connection, the
table present and holding one note: the page shows it, next to the captured message. -/
theorem index_query_failures_witness :
    (handleIndex noEnv (some samplePool) getRoot versionFails).outcome.pageData
      = some { Environment := "unknown", DBHost := "localhost", DBName := "appdb",
               DBUser := "appuser", DBVersion := "", Connected := true,
               Error := "Version query failed: canceled",
               Notes := [{ ID := 1, Content := "a", CreatedAt := "t" }],
               TableExists := true } ∧
    (handleIndex noEnv (some samplePool) getRoot versionFails).outcome.status = some 200 :=
  ⟨by decide, (index_query_failures noEnv samplePool getRoot versionFails rfl rfl).1⟩

theorem scanned_sublist (rows : List RowScan) :
    (rows.filterMap (fun r => if r.scanErr.isNone then some r.row else none)).Sublist
      (rows.map RowScan.row) := by
  induction rows with
  | nil => simp
  | cons r rest ih =>
    cases hr : r.scanErr with
    | none => simpa [List.filterMap_cons, hr] using ih
    | some e => simpa [List.filterMap_cons, hr] using ih.cons r.row

theorem index_notes_from_loop (env : String → String) (pool : Option Pool) (r : Request)
    (o : Outcomes) (d : PageData)
    (hd : (handleIndex env pool r o).outcome.pageData = some d) :
    d.Notes = [] ∨ d.Notes = scanLoop o.delivered [] := by
  unfold handleIndex at hd
  by_cases hp : r.Path = "/"
  · cases pool with
    | none =>
      simp [hp, render, Outcome.pageData, Response.pageData] at hd
      subst hd; exact Or.inl rfl
    | some p =>
      cases ha : o.acquire <;> cases hv : o.version <;> cases ht : o.tableExists <;>
        (try rename_i b; cases b) <;> cases hn : o.notes <;>
        simp [hp, ha, hv, ht, hn, render, Outcome.pageData, Response.pageData] at hd <;>
        subst hd <;> simp [Outcomes.delivered, hn]
  · simp [hp, Outcome.pageData, Response.pageData] at hd

/-- C6: whenever the notes query delivers at most 20 rows in strictly descending id
order, then for every pattern of scan failures the rendered `Notes` is a sub-sequence,
in order, of the delivered rows, made of rows whose scan succeeded; it has at most 20
entries and its ids are strictly descending. -/
theorem index_notes_bounded_sorted (env : String → String) (pool : Option Pool)
    (r : Request) (o : Outcomes) (d : PageData)
    (hlen : o.delivered.length ≤ 20)
    (hsorted : (o.delivered.map (fun x => x.row.ID)).Pairwise (fun a b => a > b))
    (hd : (handleIndex env pool r o).outcome.pageData = some d) :
    d.Notes.length ≤ 20 ∧
    (d.Notes.map Note.ID).Pairwise (fun a b => a > b) ∧
    d.Notes.Sublist (o.delivered.map RowScan.row) ∧
    ∀ n ∈ d.Notes, ∃ x ∈ o.delivered, x.scanErr = none ∧ x.row = n := by
  have hsub : d.Notes.Sublist (o.delivered.map RowScan.row) ∧
      ∀ n ∈ d.Notes, ∃ x ∈ o.delivered, x.scanErr = none ∧ x.row = n := by
    rcases index_notes_from_loop env pool r o d hd with h | h
    · rw [h]; simp
    · rw [h, scanLoop_eq, List.nil_append]
      refine ⟨scanned_sublist _, ?_⟩
      intro n hn
      rw [List.mem_filterMap] at hn
      obtain ⟨x, hx, hxn⟩ := hn
      refine ⟨x, hx, ?_⟩
      cases hs : x.scanErr with
      | none => simpa [hs] using hxn
      | some e => simp [hs] at hxn
  refine ⟨?_, ?_, hsub.1, hsub.2⟩
  · have := hsub.1.length_le
    simp only [List.length_map] at this
    omega
  · have hmap : (d.Notes.map Note.ID).Sublist (o.delivered.map (fun x => x.row.ID)) := by
      have := hsub.1.map Note.ID
      simpa [List.map_map, Function.comp_def] using this
    exact hsorted.sublist hmap

/-- C6 at three delivered rows with ids 9, 7, 4, the scan of the second failing: the
page lists the rows 9 and 4. -/
theorem index_notes_bounded_sorted_witness :
    (handleIndex noEnv (some samplePool) getRoot middleScanFails).outcome.pageData
      = some { Environment := "unknown", DBHost := "localhost", DBName := "appdb",
               DBUser := "appuser", DBVersion := "PostgreSQL 16.3", Connected := true,
               Error := "",
               Notes := [{ ID := 9, Content := "c", CreatedAt := "t3" },
                         { ID := 4, Content := "a", CreatedAt := "t1" }],
               TableExists := true } ∧
    ([{ ID := 9, Content := "c", CreatedAt := "t3" },
      { ID := 4, Content := "a", CreatedAt := "t1" }] : List Note).length ≤ 20 ∧
    (([{ ID := 9, Content := "c", CreatedAt := "t3" },
       { ID := 4, Content := "a", CreatedAt := "t1" }] : List Note).map Note.ID).Pairwise
      (fun a b => a > b) :=
  have h := index_notes_bounded_sorted noEnv (some samplePool) getRoot middleScanFails
    { Environment := "unknown", DBHost := "localhost", DBName := "appdb",
      DBUser := "appuser", DBVersion := "PostgreSQL 16.3", Connected := true,
      Error := "",
      Notes := [{ ID := 9, Content := "c", CreatedAt := "t3" },
                { ID := 4, Content := "a", CreatedAt := "t1" }],
      TableExists := true }
    (by decide) (by decide) (by decide)
  ⟨by decide, h.1, h.2.1⟩

theorem serveAll_pool (env : String → String) (pool : Option Pool) (requests : List Served) :
    (serveAll env pool requests).1 = pool := by
  induction requests with
  | nil => rfl
  | cons s rest ih => simpa [serveAll] using ih

/-- C8, evaluated on a failed start: when `initPool` returns an error the global pool
is nil, it is still nil after every sequence of requests to the five handlers, whatever
the outcomes of their calls, and `/healthz` then answers 503 `pool not initialized`
even with a reachable database (a ping that would succeed): nothing retries the
initialisation. -/
theorem pool_never_reinitialised (env : String → String) (parseErr newErr : Option String)
    (requests : List Served) (r : Request) (o : Outcomes)
    (hfail : (initPool env parseErr newErr none).2 ≠ none) :
    (initPool env parseErr newErr none).1 = none ∧
    (main env parseErr newErr requests).1 = none ∧
    handleReadiness (main env parseErr newErr requests).1 r { o with ping := none }
      = { outcome := .responded (.written 503 "pool not initialized"), trace := [] } := by
  have h0 : (initPool env parseErr newErr none).1 = none := by
    unfold initPool at hfail ⊢
    cases parseErr with
    | some e => rfl
    | none =>
      cases newErr with
      | some e => rfl
      | none => simp at hfail
  have h1 : (main env parseErr newErr requests).1 = none := by
    unfold main
    rw [serveAll_pool, h0]
  refine ⟨h0, h1, ?_⟩
  rw [h1]
  rfl

/-- C8 at a start whose `ParseConfig` fails, followed by `GET /`, `POST /add-note` with
an empty content and `GET /healthz`, all on a reachable database. -/
theorem pool_never_reinitialised_witness :
    (main noEnv (some "invalid port") none
      [{ route := .index, request := getRoot, outcomes := allOk },
       { route := .addNote, request := postEmpty, outcomes := allOk },
       { route := .healthz, request := getHealthz, outcomes := allOk }]).1 = none ∧
    handleReadiness
      (main noEnv (some "invalid port") none
        [{ route := .index, request := getRoot, outcomes := allOk },
         { route := .addNote, request := postEmpty, outcomes := allOk },
         { route := .healthz, request := getHealthz, outcomes := allOk }]).1
      getHealthz { allOk with ping := none }
      = { outcome := .responded (.written 503 "pool not initialized"), trace := [] } :=
  (pool_never_reinitialised noEnv (some "invalid port") none
      [{ route := .index, request := getRoot, outcomes := allOk },
       { route := .addNote, request := postEmpty, outcomes := allOk },
       { route := .healthz, request := getHealthz, outcomes := allOk }]
      getHealthz allOk (by simp [initPool])).2

theorem scanLoop_all_ok (l : List Note) :
    scanLoop (l.map (fun n => ({ row := n, scanErr := none } : RowScan))) [] = l := by
  rw [scanLoop_eq]
  induction l with
  | nil => rfl
  | cons a t ih => simpa using ih

theorem getIndex_notes (env : String → String) (db : DB) (rows : List Note)
    (version : String) (pool : Pool) (r : Request)
    (ht : db.notes = some rows) (hp : r.Path = "/") :
    ∃ d, (getIndex env db version pool r).outcome.pageData = some d ∧
      d.Notes = (rows.insertionSort byIdDesc).take 20 ∧ d.TableExists = true := by
  unfold getIndex handleIndex
  simp [hp, DB.outcomes, DB.tableExists, DB.selectNotes, ht, render, Outcome.pageData,
    Response.pageData, Except.map]
  rw [← List.map_take]
  exact scanLoop_all_ok _

theorem postAddNote_ok (db : DB) (rows : List Note) (now version : String) (pool : Pool)
    (r : Request) (ht : db.notes = some rows) (hm : r.Method = MethodPost)
    (hc : r.FormValue "content" ≠ "")
    (hok : (postAddNote db now version pool r).1.outcome.status = some 303) :
    (postAddNote db now version pool r).2
      = { notes := some (rows ++ [{ ID := db.nextId, Content := r.FormValue "content",
                                    CreatedAt := now }]),
          nextId := db.nextId + 1 } := by
  unfold postAddNote addNoteOn handleAddNote acquire at hok ⊢
  by_cases hs : db.nextId > maxSerial
  · simp [hm, hc, DB.outcomes, DB.insertNote, ht, hs, errorOf, Outcome.status,
      Response.status, StatusInternalServerError] at hok
  · simp [hm, hc, DB.outcomes, DB.insertNote, ht, hs, errorOf, Event.isInsert]

theorem head_of_sorted_max (rows : List Note) (n : Note)
    (hmax : ∀ x ∈ rows, x.ID < n.ID) :
    ((rows ++ [n]).insertionSort byIdDesc).head? = some n := by
  have hperm := List.perm_insertionSort byIdDesc (rows ++ [n])
  have hsorted := List.sorted_insertionSort byIdDesc (rows ++ [n])
  cases hl : (rows ++ [n]).insertionSort byIdDesc with
  | nil =>
    have := hperm.length_eq
    rw [hl] at this
    simp at this
  | cons a t =>
    rw [hl] at hperm hsorted
    have hn : n ∈ a :: t := hperm.mem_iff.mpr (by simp)
    have ha : a ∈ rows ++ [n] := hperm.mem_iff.mp (by simp)
    simp only [List.head?_cons, Option.some.injEq]
    rcases List.mem_append.mp ha with ha | ha
    · exfalso
      have hlt := hmax a ha
      rcases List.mem_cons.mp hn with h | h
      · rw [h] at hlt; exact lt_irrefl _ hlt
      · have hge : byIdDesc a n := List.rel_of_sorted_cons hsorted n h
        unfold byIdDesc at hge
        omega
    · simpa using ha

/-- C7 as stated fails: on a table holding twenty notes a successful `POST /add-note`
with `content=hello` leaves the number of listed notes at 20, not at 21; the new note
is listed first. -/
theorem add_note_count_capped :
    db20.wf ∧
    (postAddNote db20 "now" "16.3" samplePool postHello).1.outcome.status = some 303 ∧
    ((getIndex noEnv db20 "16.3" samplePool getRoot).outcome.pageData.map
      (fun d => d.Notes.length)) = some 20 ∧
    ((getIndex noEnv (postAddNote db20 "now" "16.3" samplePool postHello).2 "16.3"
      samplePool getRoot).outcome.pageData.map (fun d => d.Notes.length)) = some 20 ∧
    ((getIndex noEnv (postAddNote db20 "now" "16.3" samplePool postHello).2 "16.3"
      samplePool getRoot).outcome.pageData.map (fun d => d.Notes.head?.map Note.Content))
      = some (some "hello") := by
  refine ⟨?_, ?_, ?_, ?_, ?_⟩
  · decide
  · decide
  · decide
  · decide
  · decide

/-- C7, amended: on a database whose ids were handed out by the sequence and whose
`notes` table exists, a successful `POST /add-note` with non-empty content `c` on a
healthy pool, followed by a request to `/`, lists the new note first; the number of
listed notes is one more than on a request to `/` made just before the insert when that
request listed fewer than 20 notes, and stays at 20 otherwise. -/
theorem add_note_then_index (env : String → String) (db : DB) (rows : List Note)
    (now version : String) (pool : Pool) (r r1 r2 : Request) (c : String)
    (hwf : db.wf) (ht : db.notes = some rows) (hc : c ≠ "")
    (hm : r.Method = MethodPost) (hf : r.FormValue "content" = c)
    (h1 : r1.Path = "/") (h2 : r2.Path = "/")
    (hok : (postAddNote db now version pool r).1.outcome.status = some 303) :
    ∃ before after,
      (getIndex env db version pool r1).outcome.pageData = some before ∧
      (getIndex env (postAddNote db now version pool r).2 version pool r2).outcome.pageData
        = some after ∧
      after.Notes.head?.map Note.Content = some c ∧
      after.Notes.length = min (before.Notes.length + 1) 20 ∧
      (before.Notes.length < 20 → after.Notes.length = before.Notes.length + 1) ∧
      (before.Notes.length = 20 → after.Notes.length = 20) := by
  have hdb := postAddNote_ok db rows now version pool r ht hm (by rw [hf]; exact hc) hok
  rw [hf] at hdb
  obtain ⟨before, hb, hbn, -⟩ := getIndex_notes env db rows version pool r1 ht h1
  obtain ⟨after, ha, han, -⟩ :=
    getIndex_notes env (postAddNote db now version pool r).2
      (rows ++ [{ ID := db.nextId, Content := c, CreatedAt := now }]) version pool r2
      (by rw [hdb]) h2
  have hmax : ∀ x ∈ rows,
      x.ID < ({ ID := db.nextId, Content := c, CreatedAt := now } : Note).ID := by
    intro x hx
    unfold DB.wf at hwf
    rw [ht] at hwf
    exact hwf.2 x hx
  have hhead := head_of_sorted_max rows { ID := db.nextId, Content := c, CreatedAt := now } hmax
  have hlenb : before.Notes.length = min 20 rows.length := by
    rw [hbn, List.length_take, List.length_insertionSort]
  have hlena : after.Notes.length = min 20 (rows.length + 1) := by
    rw [han, List.length_take, List.length_insertionSort]
    simp
  refine ⟨before, after, hb, ha, ?_, ?_, ?_, ?_⟩
  · rw [han]
    cases hl : (rows ++ [({ ID := db.nextId, Content := c, CreatedAt := now } : Note)]).insertionSort
        byIdDesc with
    | nil => rw [hl] at hhead; simp at hhead
    | cons a t =>
      rw [hl] at hhead
      simp only [List.head?_cons, Option.some.injEq] at hhead
      simp [hhead]
  · omega
  · omega
  · omega

/-- C7, amended, at the table holding the notes 1 and 2 and `POST /add-note` with
`content=hello`: two notes listed before, three after, `hello` first. -/
theorem add_note_then_index_witness :
    ∃ before after,
      (getIndex noEnv db2 "16.3" samplePool getRoot).outcome.pageData = some before ∧
      (getIndex noEnv (postAddNote db2 "now" "16.3" samplePool postHello).2 "16.3"
        samplePool getRoot).outcome.pageData = some after ∧
      after.Notes.head?.map Note.Content = some "hello" ∧
      after.Notes.length = min (before.Notes.length + 1) 20 ∧
      (before.Notes.length < 20 → after.Notes.length = before.Notes.length + 1) ∧
      (before.Notes.length = 20 → after.Notes.length = 20) :=
  add_note_then_index noEnv db2
    [{ ID := 1, Content := "a", CreatedAt := "t1" }, { ID := 2, Content := "b", CreatedAt := "t2" }]
    "now" "16.3" samplePool postHello getRoot getRoot "hello"
    (by decide) rfl (by decide) rfl (by decide) rfl rfl (by decide)

/-! ## The database invariant and the notes query -/

theorem wf_createTable (db : DB) (h : db.wf) : db.createTable.wf := by
  unfold DB.createTable
  cases hn : db.notes with
  | some rows => simpa [hn] using h
  | none => simp [DB.wf]

theorem wf_insertNote (db db2 : DB) (c now : String) (h : db.wf)
    (hi : db.insertNote c now = .ok db2) : db2.wf := by
  unfold DB.insertNote at hi
  cases hn : db.notes with
  | none => simp [hn] at hi
  | some rows =>
    unfold DB.wf at h
    rw [hn] at h hi
    by_cases hs : db.nextId > maxSerial
    · simp [hs] at hi
    · simp only [hs, if_false, Except.ok.injEq] at hi
      subst hi
      unfold DB.wf
      simp only [List.map_append, List.map_cons, List.map_nil, List.mem_append,
        List.mem_singleton]
      refine ⟨?_, ?_⟩
      · rw [List.nodup_append]
        refine ⟨h.1, by simp, ?_⟩
        intro a ha hb
        simp only [List.mem_singleton] at hb
        rw [List.mem_map] at ha
        obtain ⟨x, hx, hxa⟩ := ha
        have := h.2 x hx
        omega
      · intro n hn2
        rcases hn2 with hn2 | hn2
        · have := h.2 n hn2; omega
        · rw [hn2]; simp

/-- On a database whose ids are pairwise distinct, the notes query returns at most 20
rows in strictly descending id order: what the scan loop is assumed to be given holds
of every such database. -/
theorem selectNotes_bounded_sorted (db : DB) (l : List Note) (h : db.wf)
    (hs : db.selectNotes = .ok l) :
    l.length ≤ 20 ∧ (l.map Note.ID).Pairwise (fun a b => a > b) := by
  unfold DB.selectNotes at hs
  cases hn : db.notes with
  | none => simp [hn] at hs
  | some rows =>
    rw [hn] at hs
    simp only [Except.ok.injEq] at hs
    subst hs
    refine ⟨by simp [List.length_take], ?_⟩
    have hperm := List.perm_insertionSort byIdDesc rows
    have hsorted : (rows.insertionSort byIdDesc).Pairwise byIdDesc :=
      List.sorted_insertionSort byIdDesc rows
    unfold DB.wf at h
    rw [hn] at h
    have hnodup : ((rows.insertionSort byIdDesc).map Note.ID).Nodup :=
      (hperm.map Note.ID).nodup_iff.mpr h.1
    have hstrict : ((rows.insertionSort byIdDesc).map Note.ID).Pairwise (fun a b => a > b) := by
      have hge : ((rows.insertionSort byIdDesc).map Note.ID).Pairwise (fun a b => a ≥ b) := by
        rw [List.pairwise_map]
        exact hsorted
      have hne : ((rows.insertionSort byIdDesc).map Note.ID).Pairwise (fun a b => a ≠ b) :=
        hnodup
      exact (hge.and hne).imp (fun ⟨h1, h2⟩ => lt_of_le_of_ne h1 (Ne.symm h2))
    have hsub : ((List.take 20 (rows.insertionSort byIdDesc)).map Note.ID).Sublist
        ((rows.insertionSort byIdDesc).map Note.ID) :=
      (List.take_sublist 20 _).map Note.ID
    exact hstrict.sublist hsub

end App
